import Mathlib

/-!
Verification of the Helio Workstation excerpt: the VCS `Delta` value object
(serialization round trip), the `ResourceSyncService` coordinator (single-flight
thread dispatch, updates check, failure handlers), and the minimap scroller
screen drag handler.  Each C++ fragment is shallowly embedded as executable
Lean definitions; machine strings are Lean strings, JUCE `int64` values are
`Int` (all statements stay inside the 64-bit range or are range-independent),
and UI / thread side effects are reified as explicit effect lists.
-/

namespace HelioSpec

/-! ## Decimal int64 printing and parsing

`Delta::serialize` stores the integer parameter with JUCE `String (int64)` and
`Delta::deserialize` reads it back with `String::getLargeIntValue`.  Those two
library functions are modelled here: decimal printing with a leading minus sign
for negatives, and parsing that accepts an optional leading minus sign and
consumes decimal digits. -/

def digitChar (n : Nat) : Char := Char.ofNat (48 + n)

def natDigitsAux (n : Nat) (acc : List Char) : List Char :=
  if h : n < 10 then digitChar n :: acc
  else natDigitsAux (n / 10) (digitChar (n % 10) :: acc)
termination_by n
decreasing_by exact Nat.div_lt_self (by omega) (by omega)

/-- Decimal digit characters of a natural number, most significant first. -/
def natDigits (n : Nat) : List Char := natDigitsAux n []

/-- Model of JUCE `String (int64 value)`: decimal text, minus sign when negative. -/
def int64ToChars (n : Int) : List Char :=
  if n < 0 then '-' :: natDigits n.natAbs else natDigits n.toNat

def int64ToString (n : Int) : String := String.mk (int64ToChars n)

def isDigitChar (c : Char) : Bool := 48 ≤ c.toNat && c.toNat ≤ 57

/-- Accumulating decimal parser: consumes digits, stops at the first non-digit. -/
def parseDigitsAcc : List Char → Nat → Nat
  | [], acc => acc
  | c :: cs, acc =>
    if isDigitChar c then parseDigitsAcc cs (acc * 10 + (c.toNat - 48)) else acc

/-- Model of JUCE `String::getLargeIntValue` on the character list: an optional
leading minus sign followed by decimal digits. -/
def parseLargeIntChars (l : List Char) : Int :=
  match l with
  | [] => 0
  | c :: cs =>
    if c = '-' then -(parseDigitsAcc cs 0 : Int) else (parseDigitsAcc (c :: cs) 0 : Int)

def getLargeIntValue (s : String) : Int := parseLargeIntChars s.data

theorem digitChar_toNat {n : Nat} (h : n < 10) : (digitChar n).toNat = 48 + n := by
  interval_cases n <;> decide

theorem isDigitChar_digitChar {n : Nat} (h : n < 10) : isDigitChar (digitChar n) = true := by
  simp [isDigitChar, digitChar_toNat h]
  omega

theorem natDigitsAux_acc (n : Nat) (acc : List Char) :
    natDigitsAux n acc = natDigitsAux n [] ++ acc := by
  induction n using Nat.strong_induction_on generalizing acc with
  | _ n ih =>
    by_cases h : n < 10
    · conv_lhs => rw [natDigitsAux]
      conv_rhs => rw [natDigitsAux]
      simp [h]
    · conv_lhs => rw [natDigitsAux]
      conv_rhs => rw [natDigitsAux]
      simp only [h, dite_false]
      have hlt : n / 10 < n := Nat.div_lt_self (by omega) (by omega)
      rw [ih (n / 10) hlt (digitChar (n % 10) :: acc), ih (n / 10) hlt [digitChar (n % 10)]]
      simp

theorem natDigits_cons_of_ge (n : Nat) (h : ¬ n < 10) :
    natDigits n = natDigits (n / 10) ++ [digitChar (n % 10)] := by
  rw [natDigits, natDigitsAux]
  simp only [h, dite_false]
  rw [natDigitsAux_acc]
  rfl

theorem natDigits_all_digits (n : Nat) : ∀ c ∈ natDigits n, isDigitChar c = true := by
  induction n using Nat.strong_induction_on with
  | _ n ih =>
    by_cases h : n < 10
    · rw [natDigits, natDigitsAux]
      simp only [h, dite_true]
      intro c hc
      simp only [List.mem_singleton] at hc
      subst hc
      exact isDigitChar_digitChar h
    · rw [natDigits_cons_of_ge n h]
      intro c hc
      rcases List.mem_append.mp hc with h1 | h2
      · exact ih (n / 10) (Nat.div_lt_self (by omega) (by omega)) c h1
      · simp only [List.mem_singleton] at h2
        subst h2
        exact isDigitChar_digitChar (Nat.mod_lt n (by omega))

theorem natDigits_ne_nil (n : Nat) : natDigits n ≠ [] := by
  by_cases h : n < 10
  · rw [natDigits, natDigitsAux]
    simp [h]
  · rw [natDigits_cons_of_ge n h]
    simp

theorem parseDigitsAcc_append_digits (l1 l2 : List Char) (a : Nat)
    (hd : ∀ c ∈ l1, isDigitChar c = true) :
    parseDigitsAcc (l1 ++ l2) a = parseDigitsAcc l2 (parseDigitsAcc l1 a) := by
  induction l1 generalizing a with
  | nil => rfl
  | cons c cs ih =>
    have hc : isDigitChar c = true := hd c (by simp)
    simp only [List.cons_append, parseDigitsAcc, hc, if_true]
    exact ih _ fun x hx => hd x (by simp [hx])

theorem parseDigitsAcc_natDigits (n : Nat) : parseDigitsAcc (natDigits n) 0 = n := by
  induction n using Nat.strong_induction_on with
  | _ n ih =>
    by_cases h : n < 10
    · rw [natDigits, natDigitsAux]
      simp only [h, dite_true]
      simp [parseDigitsAcc, isDigitChar_digitChar h, digitChar_toNat h]
    · rw [natDigits_cons_of_ge n h,
        parseDigitsAcc_append_digits _ _ _ (natDigits_all_digits (n / 10)),
        ih (n / 10) (Nat.div_lt_self (by omega) (by omega))]
      have hm : n % 10 < 10 := Nat.mod_lt n (by omega)
      simp [parseDigitsAcc, isDigitChar_digitChar hm, digitChar_toNat hm]
      omega

theorem natDigits_head_not_minus (n : Nat) (c : Char) (cs : List Char)
    (h : natDigits n = c :: cs) : ¬ c = '-' := by
  intro hc
  have hmem : c ∈ natDigits n := by rw [h]; simp
  have := natDigits_all_digits n c hmem
  subst hc
  simp [isDigitChar] at this

/-- Printing an `Int` in decimal and parsing it back is the identity. -/
theorem getLargeIntValue_int64ToString (n : Int) : getLargeIntValue (int64ToString n) = n := by
  rw [getLargeIntValue, int64ToString]
  show parseLargeIntChars (int64ToChars n) = n
  rw [int64ToChars]
  by_cases hneg : n < 0
  · simp only [hneg, if_true, parseLargeIntChars, if_pos rfl]
    rw [parseDigitsAcc_natDigits]
    omega
  · simp only [hneg, if_false]
    rcases hl : natDigits n.toNat with _ | ⟨c, cs⟩
    · exact absurd hl (natDigits_ne_nil n.toNat)
    · rw [parseLargeIntChars]
      simp only [natDigits_head_not_minus n.toNat c cs hl, if_false]
      rw [← hl, parseDigitsAcc_natDigits]
      omega

/-! ## The VCS `Delta` value object and its tree serialization

Embeds `Delta.cpp`: `Delta::serialize`, `Delta::deserialize` and `Delta::reset`.
The JUCE tree document (`ValueTree` / `XmlElement`) is modelled as a named node
carrying string attributes and child nodes; `getStringAttribute` looks an
attribute up by key with a default, `getChildByName` finds the first child with
a given tag.  The serialization keys `Serialization::VCS::delta`,
`deltaType`, `deltaName`, `deltaStringParam`, `deltaIntParam`, `deltaId` are
opaque distinct identifiers; their exact spellings are irrelevant. -/

inductive ValueTree where
  | node (tag : String) (attrs : List (String × String)) (children : List ValueTree)

def ValueTree.tag : ValueTree → String
  | .node t _ _ => t

def ValueTree.attrs : ValueTree → List (String × String)
  | .node _ a _ => a

def ValueTree.children : ValueTree → List ValueTree
  | .node _ _ c => c

def ValueTree.hasTagName (t : ValueTree) (name : String) : Bool :=
  t.tag == name

def ValueTree.getChildByName (t : ValueTree) (name : String) : Option ValueTree :=
  t.children.find? fun c => c.tag == name

def ValueTree.getStringAttribute (t : ValueTree) (key dflt : String) : String :=
  match t.attrs.find? fun p => p.1 == key with
  | some p => p.2
  | none => dflt

def deltaTag : String := "delta"
def deltaTypeKey : String := "deltaType"
def deltaNameKey : String := "deltaName"
def deltaStringParamKey : String := "deltaStringParam"
def deltaIntParamKey : String := "deltaIntParam"
def deltaIdKey : String := "deltaId"

/-- From `Delta.cpp`: `static const String undefinedDelta = "undefined";`. -/
def undefinedDelta : String := "undefined"

/-- Modelled from the spec: `DeltaDescription` is declared in the missing
`Delta.h`; the spec describes a "human-readable description with optional
string/integer parameters".  `serialize`/`deserialize` use the fields
`stringToTranslate`, `stringParameter`, `intParameter` (an `int64`) and a
three-argument constructor `DeltaDescription(name, numChanges, parameter)`. -/
structure DeltaDescription where
  stringToTranslate : String
  stringParameter : String
  intParameter : Int
  deriving DecidableEq

/-- From `Delta.cpp`: `int64 DeltaDescription::defaultNumChanges = -1;`. -/
def DeltaDescription.defaultNumChanges : Int := -1

/-- The `Delta` record: type tag, description, unique identifier.  The `Uuid`
member is modelled by its string representation (`Uuid::toString` is the
identity on it, and assigning a string to a `Uuid` stores that string). -/
structure Delta where
  type : String
  description : DeltaDescription
  vcsUuid : String
  deriving DecidableEq

/-- From `Delta.cpp`: `Delta::reset` has an empty body, so it changes nothing. -/
def Delta.reset (d : Delta) : Delta := d

/-- Embeds `VCS::Delta::serialize`: build the element named
`Serialization::VCS::delta` and set the five attributes, the integer parameter
converted to its decimal string. -/
def Delta.serialize (d : Delta) : ValueTree :=
  ValueTree.node deltaTag
    [(deltaTypeKey, d.type),
     (deltaNameKey, d.description.stringToTranslate),
     (deltaStringParamKey, d.description.stringParameter),
     (deltaIntParamKey, int64ToString d.description.intParameter),
     (deltaIdKey, d.vcsUuid)]
    []

/-- Embeds `VCS::Delta::deserialize`: reset, locate the delta element (the tree
itself if so tagged, else its first child so tagged, else return), then read the
five attributes with their defaults. -/
def Delta.deserialize (d : Delta) (tree : ValueTree) : Delta :=
  let d0 := d.reset
  let root : Option ValueTree :=
    if tree.hasTagName deltaTag then some tree else tree.getChildByName deltaTag
  match root with
  | none => d0
  | some root =>
    let vcsUuid := root.getStringAttribute deltaIdKey d0.vcsUuid
    let type := root.getStringAttribute deltaTypeKey undefinedDelta
    let descriptionName := root.getStringAttribute deltaNameKey ""
    let descriptionStringParam := root.getStringAttribute deltaStringParamKey ""
    let descriptionIntParam :=
      getLargeIntValue (root.getStringAttribute deltaIntParamKey
        (int64ToString DeltaDescription.defaultNumChanges))
    { type := type,
      description := DeltaDescription.mk descriptionName descriptionStringParam descriptionIntParam,
      vcsUuid := vcsUuid }

/-- Claim C2: for every `Delta` record, deserializing the tree produced by
serializing it yields a `Delta` whose fields (type, description name,
description string parameter, description integer parameter, identifier) are
identical to the original's — whatever the prior state of the target object. -/
theorem delta_serialize_deserialize_roundtrip (d dInit : Delta) :
    Delta.deserialize dInit d.serialize = d := by
  cases d with
  | mk t desc u =>
    cases desc with
    | mk nm sp ip =>
      simp only [Delta.deserialize, Delta.serialize, Delta.reset, ValueTree.hasTagName,
        ValueTree.tag, ValueTree.getStringAttribute, ValueTree.attrs, List.find?,
        deltaTag, deltaTypeKey, deltaNameKey, deltaStringParamKey, deltaIntParamKey, deltaIdKey]
      simp [getLargeIntValue_int64ToString]

/-- Claim C8: serialize produces a tree element named `delta` whose attributes
are exactly the five fields — type, name, string parameter, integer parameter
(encoded as a decimal string), identifier — and no children. -/
theorem delta_serialize_shape (d : Delta) :
    d.serialize.tag = deltaTag ∧
    d.serialize.attrs =
      [(deltaTypeKey, d.type),
       (deltaNameKey, d.description.stringToTranslate),
       (deltaStringParamKey, d.description.stringParameter),
       (deltaIntParamKey, int64ToString d.description.intParameter),
       (deltaIdKey, d.vcsUuid)] ∧
    d.serialize.children = [] := by
  refine ⟨rfl, rfl, rfl⟩

/-- Claim C9: deserializing from a tree that is neither tagged `delta` nor has a
child tagged `delta` leaves every field of the `Delta` unchanged, because
`reset` performs no mutation and `deserialize` returns early. -/
theorem delta_deserialize_no_root_unchanged (d : Delta) (tree : ValueTree)
    (h1 : tree.hasTagName deltaTag = false)
    (h2 : tree.getChildByName deltaTag = none) :
    d.deserialize tree = d := by
  simp only [Delta.deserialize, h1, h2, Bool.false_eq_true, if_false]
  rfl

/-- Witness for C9 at a concrete non-delta tree. -/
theorem delta_deserialize_no_root_unchanged_witness :
    Delta.deserialize
        (Delta.mk "noteAdded" (DeltaDescription.mk "added" "C5" 3) "uuid-1")
        (ValueTree.node "other" [("deltaType", "x")] [ValueTree.node "child" [] []]) =
      Delta.mk "noteAdded" (DeltaDescription.mk "added" "C5" 3) "uuid-1" :=
  delta_deserialize_no_root_unchanged _ _ rfl rfl

/-! ## The `ResourceSyncService` coordinator

Embeds `ResourceSyncService.cpp`.  The service owns at most one background
thread per kind (`RevisionsSyncThread` — shared by revision fetch and revision
sync — and `ProjectCloneThread`); `getRunningThreadFor<T>` is the stored
`Option`.  Everything an operation does besides mutating that state (debug
logging, starting thread work, tooltips, config saves, project unloading) is
reified in the `SyncEffect` list it returns, in program order. -/

inductive SyncEffect where
  | dbgLog (msg : String)
  | startFetchRevisions (projectId projectName : String)
  | startSyncRevisions (projectId projectName : String) (revisionIds : List String)
  | startCloneProject (projectId : String)
  | showProgressTooltip
  | signalRevisionsThreadShouldExit
  | signalCloneThreadShouldExit
  | requestResource (resourceType : String) (delayMs : Nat)
  | saveLastUpdatesInfo
  | hideModalComponent
  | showTooltip (text : String)
  | showSuccessTooltip
  | showFailTooltip
  | unloadProject (projectId : String) (deleteLocally deleteRemotely : Bool)
  deriving DecidableEq

/-- A running worker thread; `signalThreadShouldExit` sets its exit flag. -/
structure ThreadHandle where
  shouldExit : Bool
  deriving DecidableEq

/-- The coordinator's thread bookkeeping: `none` means no thread of that kind is
running, `some t` is the running thread `getRunningThreadFor<T>` would return. -/
structure ServiceState where
  revisionsSyncThread : Option ThreadHandle
  projectCloneThread : Option ThreadHandle
  deriving DecidableEq

/-- Embeds `ResourceSyncService::fetchRevisionsInfo`: drop the request with a
debug log if a `RevisionsSyncThread` is already running, else start a fetch. -/
def fetchRevisionsInfo (s : ServiceState) (projectId projectName : String) :
    ServiceState × List SyncEffect :=
  match s.revisionsSyncThread with
  | some _ =>
    (s, [SyncEffect.dbgLog
      "Warning: attempt to start a revision fetch thread while another one is running"])
  | none =>
    ({ s with revisionsSyncThread := some ⟨false⟩ },
     [SyncEffect.startFetchRevisions projectId projectName])

/-- Embeds `ResourceSyncService::syncRevisions`: drop the request with a debug
log if a `RevisionsSyncThread` is already running, else start a sync. -/
def syncRevisions (s : ServiceState) (projectId projectName : String)
    (revisionIdsToSync : List String) : ServiceState × List SyncEffect :=
  match s.revisionsSyncThread with
  | some _ =>
    (s, [SyncEffect.dbgLog
      "Warning: attempt to start a revision sync thread while another one is running"])
  | none =>
    ({ s with revisionsSyncThread := some ⟨false⟩ },
     [SyncEffect.startSyncRevisions projectId projectName revisionIdsToSync])

/-- Embeds `ResourceSyncService::cloneProject`: drop the request with a debug
log if a `ProjectCloneThread` is already running, else show the progress
tooltip and start the clone. -/
def cloneProject (s : ServiceState) (projectId : String) :
    ServiceState × List SyncEffect :=
  match s.projectCloneThread with
  | some _ =>
    (s, [SyncEffect.dbgLog
      "Warning: attempt to start a project clone thread while another one is running"])
  | none =>
    ({ s with projectCloneThread := some ⟨false⟩ },
     [SyncEffect.showProgressTooltip, SyncEffect.startCloneProject projectId])

/-- Embeds `ResourceSyncService::cancelSyncRevisions`: if a
`RevisionsSyncThread` is running, signal it to exit; otherwise do nothing. -/
def cancelSyncRevisions (s : ServiceState) : ServiceState × List SyncEffect :=
  match s.revisionsSyncThread with
  | some t =>
    ({ s with revisionsSyncThread := some { t with shouldExit := true } },
     [SyncEffect.signalRevisionsThreadShouldExit])
  | none => (s, [])

/-- Embeds `ResourceSyncService::cancelCloneProject`: if a `ProjectCloneThread`
is running, signal it to exit; otherwise do nothing. -/
def cancelCloneProject (s : ServiceState) : ServiceState × List SyncEffect :=
  match s.projectCloneThread with
  | some t =>
    ({ s with projectCloneThread := some { t with shouldExit := true } },
     [SyncEffect.signalCloneThreadShouldExit])
  | none => (s, [])

/-- Claim C1: for every operation kind, if a thread of that kind is already
running, the corresponding start operation returns having changed no state and
having emitted only the diagnostic log — no thread is started, and the request
is neither queued nor merged.  (Revision fetch and revision sync share the
`RevisionsSyncThread` kind; project clone has its own.) -/
theorem singleFlight_duplicate_request_dropped (s : ServiceState) (t : ThreadHandle)
    (projectId projectName : String) (revisionIds : List String) :
    (s.revisionsSyncThread = some t →
      fetchRevisionsInfo s projectId projectName =
        (s, [SyncEffect.dbgLog
          "Warning: attempt to start a revision fetch thread while another one is running"]) ∧
      syncRevisions s projectId projectName revisionIds =
        (s, [SyncEffect.dbgLog
          "Warning: attempt to start a revision sync thread while another one is running"])) ∧
    (s.projectCloneThread = some t →
      cloneProject s projectId =
        (s, [SyncEffect.dbgLog
          "Warning: attempt to start a project clone thread while another one is running"])) := by
  constructor
  · intro h
    constructor
    · rw [fetchRevisionsInfo, h]
    · rw [syncRevisions, h]
  · intro h
    rw [cloneProject, h]

/-- Witness for C1: in a state where both thread kinds are running, each of the
three start operations is a no-op apart from its diagnostic log. -/
theorem singleFlight_duplicate_request_dropped_witness :
    fetchRevisionsInfo ⟨some ⟨false⟩, some ⟨false⟩⟩ "p1" "My Project" =
      (⟨some ⟨false⟩, some ⟨false⟩⟩, [SyncEffect.dbgLog
        "Warning: attempt to start a revision fetch thread while another one is running"]) ∧
    syncRevisions ⟨some ⟨false⟩, some ⟨false⟩⟩ "p1" "My Project" ["r1", "r2"] =
      (⟨some ⟨false⟩, some ⟨false⟩⟩, [SyncEffect.dbgLog
        "Warning: attempt to start a revision sync thread while another one is running"]) ∧
    cloneProject ⟨some ⟨false⟩, some ⟨false⟩⟩ "p1" =
      (⟨some ⟨false⟩, some ⟨false⟩⟩, [SyncEffect.dbgLog
        "Warning: attempt to start a project clone thread while another one is running"]) :=
  ⟨(singleFlight_duplicate_request_dropped ⟨some ⟨false⟩, some ⟨false⟩⟩ ⟨false⟩
      "p1" "My Project" ["r1", "r2"]).1 rfl |>.1,
   (singleFlight_duplicate_request_dropped ⟨some ⟨false⟩, some ⟨false⟩⟩ ⟨false⟩
      "p1" "My Project" ["r1", "r2"]).1 rfl |>.2,
   (singleFlight_duplicate_request_dropped ⟨some ⟨false⟩, some ⟨false⟩⟩ ⟨false⟩
      "p1" "My Project" ["r1", "r2"]).2 rfl⟩

/-- Claim C7: each cancellation request signals a running thread of its kind to
exit cooperatively — the thread stays in the state with only its exit flag set,
and the sole effect is the exit signal, never a forcible termination — and does
nothing at all when no such thread is running. -/
theorem cancel_is_cooperative (s : ServiceState) (t u : ThreadHandle) :
    (s.revisionsSyncThread = some t →
      cancelSyncRevisions s =
        ({ s with revisionsSyncThread := some ⟨true⟩ },
         [SyncEffect.signalRevisionsThreadShouldExit])) ∧
    (s.revisionsSyncThread = none → cancelSyncRevisions s = (s, [])) ∧
    (s.projectCloneThread = some u →
      cancelCloneProject s =
        ({ s with projectCloneThread := some ⟨true⟩ },
         [SyncEffect.signalCloneThreadShouldExit])) ∧
    (s.projectCloneThread = none → cancelCloneProject s = (s, [])) := by
  refine ⟨fun h => ?_, fun h => ?_, fun h => ?_, fun h => ?_⟩ <;>
    simp [cancelSyncRevisions, cancelCloneProject, h]

/-- Witness for C7: cancelling with a running thread signals it, cancelling with
no running thread does nothing. -/
theorem cancel_is_cooperative_witness :
    cancelSyncRevisions ⟨some ⟨false⟩, none⟩ =
      (⟨some ⟨true⟩, none⟩, [SyncEffect.signalRevisionsThreadShouldExit]) ∧
    cancelSyncRevisions ⟨none, none⟩ = (⟨none, none⟩, []) ∧
    cancelCloneProject ⟨none, some ⟨false⟩⟩ =
      (⟨none, some ⟨true⟩⟩, [SyncEffect.signalCloneThreadShouldExit]) ∧
    cancelCloneProject ⟨none, none⟩ = (⟨none, none⟩, []) :=
  ⟨(cancel_is_cooperative ⟨some ⟨false⟩, none⟩ ⟨false⟩ ⟨false⟩).1 rfl,
   (cancel_is_cooperative ⟨none, none⟩ ⟨false⟩ ⟨false⟩).2.1 rfl,
   (cancel_is_cooperative ⟨none, some ⟨false⟩⟩ ⟨false⟩ ⟨false⟩).2.2.1 rfl,
   (cancel_is_cooperative ⟨none, none⟩ ⟨false⟩ ⟨false⟩).2.2.2 rfl⟩

/-! ## Updates check: staleness detection and scheduled fetches

Embeds the `onUpdatesCheckOk` handler wired in
`ResourceSyncService::prepareUpdatesCheckThread`.  The random generator is a
stream of naturals; JUCE `Random::nextInt (maxValue)` at the i-th call is
`rand i % maxValue`, a value in `[0, maxValue)`. -/

/-- Modelled from the spec: `AppInfoDto` is declared outside this excerpt; the
spec describes it as "an update-info record (set of platform/version entries,
set of resource descriptors with content hashes)". -/
structure ResourceInfo where
  type : String
  hash : String
  deriving DecidableEq

/-- Modelled from the spec: a platform/version entry of the update-info record. -/
structure AppVersionInfo where
  platformType : String
  deriving DecidableEq

/-- Modelled from the spec: the update-info record. -/
structure AppInfoDto where
  versions : List AppVersionInfo
  resources : List ResourceInfo
  deriving DecidableEq

/-- The hash stored for a resource type in a cached manifest, if any. -/
def AppInfoDto.storedHashFor (cached : AppInfoDto) (resourceType : String) : Option String :=
  (cached.resources.find? fun r => r.type == resourceType).map ResourceInfo.hash

/-- Modelled from the spec: `AppInfoDto::resourceSeemsOutdated` is declared
outside this excerpt; the spec says staleness detection "must flag a resource
as outdated exactly when its hash differs from the cached manifest".  A
resource with no stored hash in the cached manifest has a differing hash. -/
def AppInfoDto.resourceSeemsOutdated (cached : AppInfoDto) (r : ResourceInfo) : Bool :=
  match cached.storedHashFor r.type with
  | some storedHash => storedHash != r.hash
  | none => true

/-- The loop body of `onUpdatesCheckOk`: walk the fetched resources; for each
one that seems outdated against the cached manifest, draw `nextInt 5`, scale to
milliseconds and schedule a resource request with that delay.  `i` is the index
of the next random draw; the second component is the index after the walk. -/
def scheduleResourceFetches (cached : AppInfoDto) (rand : Nat → Nat) :
    List ResourceInfo → Nat → List SyncEffect × Nat
  | [], i => ([], i)
  | r :: rest, i =>
    if cached.resourceSeemsOutdated r then
      let delay := rand i % 5 * 1000
      let restResult := scheduleResourceFetches cached rand rest (i + 1)
      (SyncEffect.requestResource r.type delay :: restResult.1, restResult.2)
    else
      scheduleResourceFetches cached rand rest i

/-- Embeds the `onUpdatesCheckOk` handler: load the cached last-updates info,
schedule a fetch for every resource that seems outdated, log when everything is
up to date, and save the new info as the cached copy (the returned state). -/
def onUpdatesCheckOk (cached info : AppInfoDto) (rand : Nat → Nat) :
    AppInfoDto × List SyncEffect :=
  let scheduled := (scheduleResourceFetches cached rand info.resources 0).1
  let upToDateLog :=
    if scheduled.isEmpty then [SyncEffect.dbgLog "All resources are up to date"] else []
  (info, scheduled ++ upToDateLog ++ [SyncEffect.saveLastUpdatesInfo])

/-- The resource type requested by an effect, when it is a resource request. -/
def requestedResourceType : SyncEffect → Option String
  | SyncEffect.requestResource resourceType _ => some resourceType
  | _ => none

theorem scheduleResourceFetches_types (cached : AppInfoDto) (rand : Nat → Nat)
    (rs : List ResourceInfo) (i : Nat) :
    (scheduleResourceFetches cached rand rs i).1.filterMap requestedResourceType =
      (rs.filter fun r => cached.resourceSeemsOutdated r).map ResourceInfo.type := by
  induction rs generalizing i with
  | nil => rfl
  | cons r rest ih =>
    by_cases h : cached.resourceSeemsOutdated r
    · simp [scheduleResourceFetches, h, requestedResourceType, ih]
    · simp [scheduleResourceFetches, h, ih]

/-- Claim C3: the updates-check completion handler schedules a fetch for
exactly those resources of the new manifest whose content hash differs from the
hash stored for them in the cached last-updates manifest (a resource absent
from the cached manifest counts as differing), in manifest order. -/
theorem updatesCheck_flags_exactly_hash_mismatches (cached info : AppInfoDto)
    (rand : Nat → Nat) :
    (onUpdatesCheckOk cached info rand).2.filterMap requestedResourceType =
      (info.resources.filter fun r => cached.storedHashFor r.type != some r.hash).map
        ResourceInfo.type := by
  have hsame : ∀ r : ResourceInfo,
      cached.resourceSeemsOutdated r = (cached.storedHashFor r.type != some r.hash) := by
    intro r
    rw [AppInfoDto.resourceSeemsOutdated]
    cases h : cached.storedHashFor r.type with
    | none => rfl
    | some storedHash => rfl
  simp only [onUpdatesCheckOk, List.filterMap_append, scheduleResourceFetches_types]
  have hlog : List.filterMap requestedResourceType
      (if ((scheduleResourceFetches cached rand info.resources 0).1).isEmpty = true
        then [SyncEffect.dbgLog "All resources are up to date"] else []) = [] := by
    split <;> rfl
  rw [hlog]
  rw [show List.filterMap requestedResourceType [SyncEffect.saveLastUpdatesInfo] = [] from rfl]
  simp only [List.append_nil]
  congr 1
  apply List.filter_congr
  intro r _
  rw [hsame r]

/-- Claim C4: every fetch scheduled by the updates check carries a randomized
delay of at most 5000 milliseconds (the draw `nextInt 5 * 1000` in fact never
exceeds 4000), so the delay lies in the range 0 to 5 seconds. -/
theorem updatesCheck_delay_in_range (cached info : AppInfoDto) (rand : Nat → Nat)
    (resourceType : String) (delayMs : Nat)
    (h : SyncEffect.requestResource resourceType delayMs ∈ (onUpdatesCheckOk cached info rand).2) :
    delayMs ≤ 5000 := by
  have key : ∀ (rs : List ResourceInfo) (i : Nat),
      SyncEffect.requestResource resourceType delayMs ∈
        (scheduleResourceFetches cached rand rs i).1 → delayMs ≤ 5000 := by
    intro rs
    induction rs with
    | nil => intro i hmem; simp [scheduleResourceFetches] at hmem
    | cons r rest ih =>
      intro i hmem
      by_cases ho : cached.resourceSeemsOutdated r
      · simp only [scheduleResourceFetches, ho, if_true, List.mem_cons] at hmem
        rcases hmem with heq | hmem
        · rw [SyncEffect.requestResource.injEq] at heq
          obtain ⟨-, h2⟩ := heq
          have h5 : rand i % 5 ≤ 4 := by omega
          omega
        · exact ih (i + 1) hmem
      · simp only [scheduleResourceFetches, ho, Bool.false_eq_true, if_false] at hmem
        exact ih i hmem
  simp only [onUpdatesCheckOk, List.mem_append] at h
  rcases h with (h | h) | h
  · exact key info.resources 0 h
  · split at h <;> simp at h
  · simp at h

/-- Witness for C4: a manifest with one resource missing from the empty cached
manifest schedules one fetch, whose delay (`7 % 5 * 1000 = 2000` ms) is within
the range. -/
theorem updatesCheck_delay_in_range_witness :
    SyncEffect.requestResource "arpeggiators" 2000 ∈
      (onUpdatesCheckOk ⟨[], []⟩ ⟨[], [⟨"arpeggiators", "h1"⟩]⟩ (fun _ => 7)).2 ∧
    2000 ≤ 5000 :=
  ⟨by decide,
   updatesCheck_delay_in_range ⟨[], []⟩ ⟨[], [⟨"arpeggiators", "h1"⟩]⟩ (fun _ => 7)
     "arpeggiators" 2000 (by decide)⟩

/-! ## Failure handlers

Embeds the failure callbacks wired in `prepareSyncRevisionsThread`,
`prepareProjectCloneThread` and `prepareUpdatesCheckThread`.  JUCE
`Array::getFirst` returns the first element or a default-constructed value
(the empty string), hence `headD ""`. -/

/-- Embeds the `onSyncFailed` handler: hide any modal, show the first error as
a tooltip when the list is non-empty, then show the failure tooltip. -/
def onSyncFailed (errors : List String) : List SyncEffect :=
  [SyncEffect.hideModalComponent] ++
  (if errors.length > 0 then [SyncEffect.showTooltip (errors.headD "")] else []) ++
  [SyncEffect.showFailTooltip]

/-- Embeds the `onCloneFailed` handler: hide any modal, show the first error as
a tooltip when the list is non-empty, show the failure tooltip, then unload the
project stub by id and delete it locally (`unloadProject (projectId, true, false)`). -/
def onCloneFailed (errors : List String) (projectId : String) : List SyncEffect :=
  [SyncEffect.hideModalComponent] ++
  (if errors.length > 0 then [SyncEffect.showTooltip (errors.headD "")] else []) ++
  [SyncEffect.showFailTooltip,
   SyncEffect.unloadProject projectId true false]

/-- Embeds the `onUpdatesCheckFailed` handler: only a debug log of the first
error string. -/
def onUpdatesCheckFailed (errors : List String) : List SyncEffect :=
  [SyncEffect.dbgLog ("onUpdatesCheckFailed: " ++ errors.headD "")]

/-- Whether an effect is user-visible feedback (any tooltip, transient or
modal), as opposed to a debug log or an internal action. -/
def SyncEffect.isUserFeedback : SyncEffect → Bool
  | SyncEffect.showTooltip _ => true
  | SyncEffect.showSuccessTooltip => true
  | SyncEffect.showFailTooltip => true
  | SyncEffect.showProgressTooltip => true
  | _ => false

/-- Counterexample to C5: when the updates check fails with the error list
`["network error"]`, the handler emits exactly one debug-log effect and nothing
user-visible — the first error string is not surfaced to the user via any
notification, contradicting the claim for the updates-check operation. -/
theorem updatesCheckFailed_not_surfaced :
    onUpdatesCheckFailed ["network error"] =
      [SyncEffect.dbgLog "onUpdatesCheckFailed: network error"] ∧
    (onUpdatesCheckFailed ["network error"]).all
      (fun e => !(SyncEffect.isUserFeedback e)) = true := by
  constructor
  · rfl
  · rfl

/-- Claim C5 as amended: failures are reported as a list of human-readable
error strings; for the revision-sync and project-clone operations the first
string of a non-empty list is surfaced to the user via a transient tooltip
notification, while an updates-check failure only writes the first string to
the debug log and surfaces nothing to the user. -/
theorem failure_first_error_surfaced (errors : List String) (projectId : String)
    (h : errors ≠ []) :
    SyncEffect.showTooltip (errors.headD "") ∈ onSyncFailed errors ∧
    SyncEffect.showTooltip (errors.headD "") ∈ onCloneFailed errors projectId ∧
    onUpdatesCheckFailed errors =
      [SyncEffect.dbgLog ("onUpdatesCheckFailed: " ++ errors.headD "")] := by
  have hlen : errors.length > 0 := List.length_pos.mpr h
  refine ⟨?_, ?_, rfl⟩ <;>
    simp [onSyncFailed, onCloneFailed, hlen]

/-- Witness for the amended C5 at the error list `["oops"]`. -/
theorem failure_first_error_surfaced_witness :
    SyncEffect.showTooltip "oops" ∈ onSyncFailed ["oops"] ∧
    SyncEffect.showTooltip "oops" ∈ onCloneFailed ["oops"] "p1" ∧
    onUpdatesCheckFailed ["oops"] =
      [SyncEffect.dbgLog "onUpdatesCheckFailed: oops"] :=
  failure_first_error_surfaced ["oops"] "p1" (by decide)

/-- Claim C6: whenever a project clone fails, no matter the error list, the
handler unloads the partially-created project with the given id and deletes it
locally (the `deleteLocally` flag is set, the `deleteRemotely` flag is not). -/
theorem cloneFailed_cleans_up_project (errors : List String) (projectId : String) :
    SyncEffect.unloadProject projectId true false ∈ onCloneFailed errors projectId := by
  simp [onCloneFailed]

/-! ## The minimap scroller screen drag handler

Embeds `ProjectMapScrollerScreen::mouseDrag`.  The component position is a
`Point<int>`; `realBounds` is a `Rectangle<float>`, modelled with exact
rational coordinates.  `ComponentDragger::dragComponent` together with the
bounds constrainer moves the component to some new constrained position; it is
abstracted as an arbitrary function of the current position, which only makes
the theorem stronger. -/

structure FloatRect where
  x : Rat
  y : Rat
  w : Rat
  h : Rat
  deriving DecidableEq

/-- JUCE `Rectangle::translate`: shift the origin, keep the size. -/
def FloatRect.translate (r : FloatRect) (dx dy : Rat) : FloatRect :=
  { r with x := r.x + dx, y := r.y + dy }

structure ScrollerScreenState where
  posX : Int
  posY : Int
  realBounds : FloatRect
  deriving DecidableEq

inductive ScrollerEffect where
  | xyMoveByUser
  deriving DecidableEq

/-- Embeds `ProjectMapScrollerScreen::mouseDrag`: remember the position, let the
dragger move the component to the constrained position, translate `realBounds`
by the resulting position delta, and notify the scroller. -/
def ProjectMapScrollerScreen.mouseDrag (s : ScrollerScreenState)
    (constrainedDrag : Int × Int → Int × Int) :
    ScrollerScreenState × List ScrollerEffect :=
  let lastPositionX : Rat := (s.posX : Rat)
  let lastPositionY : Rat := (s.posY : Rat)
  let newPos := constrainedDrag (s.posX, s.posY)
  let moveDeltaX : Rat := (newPos.1 : Rat) - lastPositionX
  let moveDeltaY : Rat := (newPos.2 : Rat) - lastPositionY
  ({ posX := newPos.1, posY := newPos.2,
     realBounds := s.realBounds.translate moveDeltaX moveDeltaY },
   [ScrollerEffect.xyMoveByUser])

/-- Claim C10: every mouse drag translates `realBounds` by exactly the (x, y)
delta the constrained drag applied to the component position, so the offset
between `realBounds` and the on-screen position is preserved by every drag —
for any constrained-drag behaviour. -/
theorem mouseDrag_preserves_realBounds_offset (s : ScrollerScreenState)
    (constrainedDrag : Int × Int → Int × Int) :
    ((ProjectMapScrollerScreen.mouseDrag s constrainedDrag).1.realBounds.x -
        ((ProjectMapScrollerScreen.mouseDrag s constrainedDrag).1.posX : Rat) =
      s.realBounds.x - (s.posX : Rat)) ∧
    ((ProjectMapScrollerScreen.mouseDrag s constrainedDrag).1.realBounds.y -
        ((ProjectMapScrollerScreen.mouseDrag s constrainedDrag).1.posY : Rat) =
      s.realBounds.y - (s.posY : Rat)) := by
  constructor <;>
    simp [ProjectMapScrollerScreen.mouseDrag, FloatRect.translate] <;>
    ring

end HelioSpec
